import Mathlib

set_option maxRecDepth 100000

namespace KiteLink

/-- Truncate a natural number to 32 bits. -/
def w32 (x : Nat) : Nat := x &&& 0xFFFFFFFF

/-- Rotate a 32-bit word right by `n` bits. -/
def rotr32 (n x : Nat) : Nat := w32 ((x >>> n) ||| (x <<< (32 - n)))

def shaCh (x y z : Nat) : Nat := (x &&& y) ^^^ ((x ^^^ 0xFFFFFFFF) &&& z)

def shaMaj (x y z : Nat) : Nat := (x &&& y) ^^^ (x &&& z) ^^^ (y &&& z)

def bigSigma0 (x : Nat) : Nat := rotr32 2 x ^^^ rotr32 13 x ^^^ rotr32 22 x

def bigSigma1 (x : Nat) : Nat := rotr32 6 x ^^^ rotr32 11 x ^^^ rotr32 25 x

def smallSigma0 (x : Nat) : Nat := rotr32 7 x ^^^ rotr32 18 x ^^^ (x >>> 3)

def smallSigma1 (x : Nat) : Nat := rotr32 17 x ^^^ rotr32 19 x ^^^ (x >>> 10)

def shaK : List Nat :=
  [1116352408, 1899447441, 3049323471, 3921009573, 961987163,
   1508970993, 2453635748, 2870763221, 3624381080, 310598401,
   607225278, 1426881987, 1925078388, 2162078206, 2614888103,
   3248222580, 3835390401, 4022224774, 264347078, 604807628,
   770255983, 1249150122, 1555081692, 1996064986, 2554220882,
   2821834349, 2952996808, 3210313671, 3336571891, 3584528711,
   113926993, 338241895, 666307205, 773529912, 1294757372,
   1396182291, 1695183700, 1986661051, 2177026350, 2456956037,
   2730485921, 2820302411, 3259730800, 3345764771, 3516065817,
   3600352804, 4094571909, 275423344, 430227734, 506948616,
   659060556, 883997877, 958139571, 1322822218, 1537002063,
   1747873779, 1955562222, 2024104815, 2227730452, 2361852424,
   2428436474, 2756734187, 3204031479, 3329325298]

def shaInitHash : List Nat :=
  [1779033703, 3144134277, 1013904242, 2773480762, 1359893119,
   2600822924, 528734635, 1541459225]

/-- Big-endian byte representation of `v` using `k` bytes. -/
def beBytes : Nat → Nat → List Nat
  | 0, _ => []
  | k + 1, v => beBytes k (v >>> 8) ++ [v &&& 0xFF]

/-- SHA-256 padding: append 0x80, zeros, and the 64-bit big-endian bit length. -/
def padMessage (msg : List Nat) : List Nat :=
  let len := msg.length
  let padZeros := (119 - len % 64) % 64
  msg ++ [0x80] ++ List.replicate padZeros 0 ++ beBytes 8 (8 * len)

/-- Combine bytes into 32-bit big-endian words. -/
def toWords : List Nat → List Nat
  | a :: b :: c :: d :: rest => (((a <<< 8 ||| b) <<< 8 ||| c) <<< 8 ||| d) :: toWords rest
  | _ => []

/-- Extend a 16-word block to the 64-word message schedule. -/
def extendSchedule (block : List Nat) : List Nat :=
  (List.range 48).foldl
    (fun acc _ =>
      let n := acc.length
      acc ++ [w32 (smallSigma1 (acc.getD (n - 2) 0) + acc.getD (n - 7) 0 +
                   smallSigma0 (acc.getD (n - 15) 0) + acc.getD (n - 16) 0)])
    block

/-- One round of the SHA-256 compression function on state [a,b,c,d,e,f,g,h]. -/
def compressRound (k w : Nat) (st : List Nat) : List Nat :=
  match st with
  | [a, b, c, d, e, f, g, h] =>
      let t1 := w32 (h + bigSigma1 e + shaCh e f g + k + w)
      let t2 := w32 (bigSigma0 a + shaMaj a b c)
      [w32 (t1 + t2), a, b, c, w32 (d + t1), e, f, g]
  | other => other

/-- Compress one 16-word block into the running hash. -/
def compressBlock (h : List Nat) (block : List Nat) : List Nat :=
  let ws := extendSchedule block
  let final := (List.zip shaK ws).foldl (fun st kw => compressRound kw.1 kw.2 st) h
  List.zipWith (fun x y => w32 (x + y)) h final

/-- Split a word list into 16-word blocks (a padded message always chunks evenly). -/
def toBlocks : List Nat → List (List Nat)
  | w0 :: w1 :: w2 :: w3 :: w4 :: w5 :: w6 :: w7 ::
    w8 :: w9 :: w10 :: w11 :: w12 :: w13 :: w14 :: w15 :: rest =>
      [w0, w1, w2, w3, w4, w5, w6, w7, w8, w9, w10, w11, w12, w13, w14, w15] :: toBlocks rest
  | _ => []

/-- SHA-256 digest (32 bytes) of a byte list. -/
def sha256Bytes (msg : List Nat) : List Nat :=
  (((toBlocks (toWords (padMessage msg))).foldl compressBlock shaInitHash).map (beBytes 4)).flatten

def hexDigitLower (n : Nat) : Char :=
  if n < 10 then Char.ofNat (48 + n) else Char.ofNat (87 + n)

def bytesToHex (bs : List Nat) : String :=
  ⟨(bs.map (fun b => [hexDigitLower (b / 16), hexDigitLower (b % 16)])).flatten⟩

/-- UTF-8 encoding of a single character. -/
def charUtf8 (c : Char) : List Nat :=
  let n := c.toNat
  if n < 0x80 then [n]
  else if n < 0x800 then [0xC0 ||| (n >>> 6), 0x80 ||| (n &&& 0x3F)]
  else if n < 0x10000 then
    [0xE0 ||| (n >>> 12), 0x80 ||| ((n >>> 6) &&& 0x3F), 0x80 ||| (n &&& 0x3F)]
  else
    [0xF0 ||| (n >>> 18), 0x80 ||| ((n >>> 12) &&& 0x3F),
     0x80 ||| ((n >>> 6) &&& 0x3F), 0x80 ||| (n &&& 0x3F)]

def utf8Bytes (s : String) : List Nat := (s.data.map charUtf8).flatten

/-- Hexadecimal SHA-256 digest of a string, as produced by
`crypto.createHash('sha256').update(s).digest('hex')`. -/
def sha256Hex (s : String) : String := bytesToHex (sha256Bytes (utf8Bytes s))

/-! ## Authentication model

Shallow embedding of `src/tools/zerodha-tools.ts` (the auth module): the
checksum and token-exchange logic of `ZerodhaAuth.generateAccessToken`, the
interactive flow `ZerodhaAuth.interactiveAuth`, the probe
`validateAccessToken`, and the resolver `getValidAccessToken`.  External
effects (the HTTP calls, the terminal read, the `.env` write) are passed in as
explicit outcomes, and every performed effect is recorded in an event trace in
program order. -/

/-- Sentinel placeholder value for `ZERODHA_ACCESS_TOKEN`. -/
def placeholderToken : String := "your_access_token"

/-- Payload of a successful `/session/token` exchange (`response.data.data`). -/
structure AuthTokenResponse where
  access_token : String
  public_token : String
  login_time : String
deriving DecidableEq

/-- Envelope of the `/session/token` response body as read by the code:
a `status` field, a `message` (used on non-success), and the nested data. -/
structure SessionTokenResponse where
  status : String
  message : String
  data : AuthTokenResponse
deriving DecidableEq

/-- Envelope of the `/user/profile` response body as read by the probe.
`status` is `none` when the body carries no status field (malformed reply). -/
structure ProfileResponse where
  status : Option String
deriving DecidableEq

/-- Outcome of one axios HTTP round trip as observed by the calling code:
either a response body, or a thrown error (network failure, timeout, or
HTTP error status) carrying the resolved error message. -/
inductive HttpOutcome (α : Type) where
  | ok (resp : α)
  | error (msg : String)
deriving DecidableEq

/-- Form fields submitted to `POST /session/token` via `URLSearchParams`. -/
structure FormData where
  api_key : String
  request_token : String
  checksum : String
deriving DecidableEq

/-- External effects performed by the credential code, in program order. -/
inductive Event where
  | probe (apiKey token : String)
  | sessionTokenPost (form : FormData)
  | persist (token : String)
deriving DecidableEq

def Event.isExchangePost : Event → Bool
  | .sessionTokenPost _ => true
  | _ => false

def Event.isProbe : Event → Bool
  | .probe _ _ => true
  | _ => false

/-- Number of `POST /session/token` attempts recorded in a trace. -/
def exchangeCount (tr : List Event) : Nat := (tr.filter Event.isExchangePost).length

/-- Number of validation-probe calls recorded in a trace. -/
def probeCount (tr : List Event) : Nat := (tr.filter Event.isProbe).length

/-- Tokens handed to persistence (`updateEnvFile`), in call order. -/
def persistCalls (tr : List Event) : List String :=
  tr.filterMap fun e => match e with | .persist t => some t | _ => none

/-- Checksum of `ZerodhaAuth.generateAccessToken`:
`crypto.createHash('sha256').update(apiKey + requestToken + apiSecret).digest('hex')`. -/
def checksum (apiKey requestToken apiSecret : String) : String :=
  sha256Hex (apiKey ++ requestToken ++ apiSecret)

/-- Characters treated as whitespace by JavaScript `String.prototype.trim`. -/
def jsWhitespace : List Char :=
  [' ', '\t', '\n', '\r', '\x0b', '\x0c', '\u00a0', '\u1680',
   '\u2000', '\u2001', '\u2002', '\u2003', '\u2004', '\u2005', '\u2006',
   '\u2007', '\u2008', '\u2009', '\u200a', '\u2028', '\u2029', '\u202f',
   '\u205f', '\u3000', '\ufeff']

def isJsSpace (c : Char) : Bool := jsWhitespace.contains c

/-- JavaScript `String.prototype.trim`. -/
def jsTrim (s : String) : String :=
  ⟨((s.data.dropWhile isJsSpace).reverse.dropWhile isJsSpace).reverse⟩

/-- The body of `ZerodhaAuth.generateAccessToken`: compute the checksum, POST
the form to `/session/token` (always recorded as one exchange attempt), then
return the nested data on `status === 'success'`, or a thrown error otherwise.
Non-success replies raise `Authentication failed: <message>`; axios errors are
wrapped as `Failed to generate access token: <message>`. -/
def generateAccessToken (apiKey apiSecret requestToken : String)
    (http : HttpOutcome SessionTokenResponse) :
    Except String AuthTokenResponse × List Event :=
  let form : FormData :=
    { api_key := apiKey, request_token := requestToken
      checksum := checksum apiKey requestToken apiSecret }
  match http with
  | .ok resp =>
      if resp.status = "success" then (.ok resp.data, [.sessionTokenPost form])
      else (.error ("Authentication failed: " ++ resp.message), [.sessionTokenPost form])
  | .error msg =>
      (.error ("Failed to generate access token: " ++ msg), [.sessionTokenPost form])

/-- The body of `ZerodhaAuth.interactiveAuth`: read the pasted request token;
reject an empty or all-whitespace paste before any HTTP call
(`if (!requestToken || requestToken.trim() === '')`); otherwise exchange the
trimmed token and resolve with its `access_token`. -/
def interactiveAuth (apiKey apiSecret pasted : String)
    (http : HttpOutcome SessionTokenResponse) : Except String String × List Event :=
  if pasted = "" ∨ jsTrim pasted = "" then
    (.error "Request token is required", [])
  else
    match generateAccessToken apiKey apiSecret (jsTrim pasted) http with
    | (.ok resp, evs) => (.ok resp.access_token, evs)
    | (.error e, evs) => (.error e, evs)

/-- The body of `validateAccessToken`: GET `/user/profile` with the token and
return whether the reply's status field equals `'success'`; every thrown error
is caught and collapsed to `false`.  The return type `Bool` (not `Except`)
records that the function never throws. -/
def validateAccessToken (apiKey accessToken : String)
    (http : HttpOutcome ProfileResponse) : Bool :=
  match http with
  | .ok resp => decide (resp.status = some "success")
  | .error _ => false

/-- The fallback path of `getValidAccessToken` (its body after the existing
token is rejected or absent): run `interactiveAuth`, persist the fresh token
via `updateEnvFile` (which never throws), and return it; wrap any failure as
`Authentication failed: <message>`. -/
def exchangeAndPersist (apiKey apiSecret pasted : String)
    (http : HttpOutcome SessionTokenResponse) : Except String String × List Event :=
  match interactiveAuth apiKey apiSecret pasted http with
  | (.ok tok, evs) => (.ok tok, evs ++ [.persist tok])
  | (.error e, evs) => (.error ("Authentication failed: " ++ e), evs)

/-- External outcomes consumed by one run of `getValidAccessToken`:
the profile reply seen by the probe, the pasted terminal input, and the
`/session/token` reply seen by the exchange. -/
structure ResolverEnv where
  profileHttp : HttpOutcome ProfileResponse
  pasted : String
  sessionHttp : HttpOutcome SessionTokenResponse
deriving DecidableEq

/-- The body of `getValidAccessToken`: when an existing token is supplied,
truthy (non-empty), and not the placeholder sentinel, probe it and return it
unchanged if the probe succeeds; in every other case fall back to the
interactive exchange followed by persistence. -/
def getValidAccessToken (apiKey apiSecret : String) (existingToken : Option String)
    (env : ResolverEnv) : Except String String × List Event :=
  match existingToken with
  | some t =>
      if t ≠ "" ∧ t ≠ placeholderToken then
        if validateAccessToken apiKey t env.profileHttp then
          (.ok t, [.probe apiKey t])
        else
          let fb := exchangeAndPersist apiKey apiSecret env.pasted env.sessionHttp
          (fb.1, .probe apiKey t :: fb.2)
      else exchangeAndPersist apiKey apiSecret env.pasted env.sessionHttp
  | none => exchangeAndPersist apiKey apiSecret env.pasted env.sessionHttp

/-! ## Persistence model (`updateEnvFile`)

The source runs
`envContent.replace(/ZERODHA_ACCESS_TOKEN=.*/, 'ZERODHA_ACCESS_TOKEN=' + accessToken)`
on the `.env` text (or on a default template when the file cannot be read) and
writes the result back.  The embedding works on `List Char` and models the
regex semantics directly: the replacement rewrites the FIRST occurrence of the
substring `ZERODHA_ACCESS_TOKEN=` anywhere in the text (the pattern is not
anchored to a line start) together with the greedy `.*` tail, i.e. every
following character up to the next line terminator.  Modelling scope, confined
by hypotheses on the theorems below: the line terminator is `'\n'` (the
JavaScript `.` also stops at `'\r'`, U+2028 and U+2029), and the JavaScript
`$`-expansion inside the replacement string is not modelled, so tokens are
assumed free of `'$'`, `'\n'` and `'\r'`. -/

/-- The key whose line `updateEnvFile` rewrites. -/
def accessTokenKey : List Char := "ZERODHA_ACCESS_TOKEN=".data

/-- Drop characters up to (but not including) the next `'\n'`; this is what the
greedy `.*` consumes after the matched key. -/
def dropToEol : List Char → List Char
  | [] => []
  | c :: cs => if c = '\n' then c :: cs else dropToEol cs

/-- Whether the regex `ZERODHA_ACCESS_TOKEN=.*` matches anywhere in the text
(equivalently: whether `accessTokenKey` occurs as a substring). -/
def hasKey : List Char → Bool
  | [] => false
  | c :: cs => accessTokenKey.isPrefixOf (c :: cs) || hasKey cs

/-- The `String.prototype.replace` call of `updateEnvFile`: rewrite from the
first occurrence of the key to the end of that line with `key ++ tok`. -/
def replaceEnvToken (tok : List Char) : List Char → List Char
  | [] => []
  | c :: cs =>
      if accessTokenKey.isPrefixOf (c :: cs) then
        accessTokenKey ++ tok ++ dropToEol (List.drop accessTokenKey.length (c :: cs))
      else c :: replaceEnvToken tok cs

/-- The template `updateEnvFile` materializes when the `.env` file is absent. -/
def defaultEnvTemplate : List Char :=
  ("# Zerodha API Configuration\nZERODHA_API_KEY=your_api_key\nZERODHA_API_SECRET=your_api_secret\nZERODHA_ACCESS_TOKEN=your_access_token\n\n# Optional: Request timeout in milliseconds\nREQUEST_TIMEOUT=30000\n\n# Optional: Base URL for Zerodha API\nZERODHA_BASE_URL=https://api.kite.trade\n").data

/-- The content written back by `updateEnvFile`: the store content (or the
default template when reading failed) with the token line replaced. -/
def updateEnvContent (tok : String) (existing : Option (List Char)) : List Char :=
  replaceEnvToken tok.data (existing.getD defaultEnvTemplate)

/-- Split text into lines at `'\n'` (`splitOn` semantics: `n` newlines yield
`n + 1` lines, the separators are not part of any line). -/
def linesOf : List Char → List (List Char)
  | [] => [[]]
  | c :: cs => if c = '\n' then [] :: linesOf cs else (linesOf cs).modifyHead (c :: ·)

/-- In-line effect of the replacement on the matched line: rewrite from the
first key occurrence to the end of the line. -/
def replaceLine (tok : List Char) : List Char → List Char
  | [] => []
  | c :: cs =>
      if accessTokenKey.isPrefixOf (c :: cs) then accessTokenKey ++ tok
      else c :: replaceLine tok cs

/-- Line-level description of the replacement: rewrite the first line on which
the regex matches, keep every other line. -/
def replaceFirstLine (tok : List Char) : List (List Char) → List (List Char)
  | [] => []
  | l :: ls => if hasKey l then replaceLine tok l :: ls else l :: replaceFirstLine tok ls

/-! ## Gateway startup configuration (`ZerodhaClient` constructor)

`initializeZerodhaClient` builds a `ZerodhaConfig` object literal whose
`baseUrl` and `timeout` properties are PRESENT but hold `undefined` when
`ZERODHA_BASE_URL` / `REQUEST_TIMEOUT` are not set.  The constructor then
merges `{ baseUrl: 'https://api.kite.trade', timeout: 30000, ...config }`:
a JavaScript spread copies own properties even when their value is
`undefined`, so a present-but-undefined key overwrites the default.  The
resulting values are handed to `axios.create`, where an `undefined` `baseURL`
means no base URL and an `undefined` `timeout` falls back to the axios default
of `0` (no timeout). -/

/-- A JavaScript object field: absent, present with value `undefined`, or a
real value. -/
inductive JsField (α : Type) where
  | absent
  | undef
  | val (a : α)
deriving DecidableEq

/-- Value of a property after `{ key: d, ...config }`: a field absent from
`config` keeps the default, a present field overwrites it — even when its
value is `undefined` (`none`). -/
def spreadField {α : Type} (d : α) : JsField α → Option α
  | .absent => some d
  | .undef => none
  | .val a => some a

/-- The runtime shape of the `ZerodhaConfig` object built at startup. -/
structure ZerodhaConfigObj where
  apiKey : String
  apiSecret : String
  accessToken : String
  baseUrl : JsField String
  timeout : JsField Nat
deriving DecidableEq

/-- The request configuration the axios instance ends up with: `baseURL` may
be absent; `timeout` is a number, `0` meaning no timeout (the axios default). -/
structure AxiosClientConfig where
  baseURL : Option String
  timeout : Nat
deriving DecidableEq

/-- The `ZerodhaClient` constructor: merge the defaults with the supplied
config by spread, then create the axios instance. -/
def mkZerodhaClient (cfg : ZerodhaConfigObj) : AxiosClientConfig :=
  { baseURL := spreadField "https://api.kite.trade" cfg.baseUrl
    timeout := (spreadField 30000 cfg.timeout).getD 0 }

/-- JavaScript `parseInt` as used on `REQUEST_TIMEOUT` (modelled for plain
decimal inputs; unreached in the claims, which leave the variable unset). -/
def jsParseInt (s : String) : Nat := s.toNat?.getD 0

/-- The `ZerodhaConfig` object literal of `initializeZerodhaClient`: the
`baseUrl` and `timeout` keys are always present; they hold `undefined` when
the environment variable is unset (or, for `timeout`, falsy). -/
def startupConfig (envBaseUrl envTimeout : Option String)
    (apiKey apiSecret accessToken : String) : ZerodhaConfigObj :=
  { apiKey := apiKey, apiSecret := apiSecret, accessToken := accessToken
    baseUrl := match envBaseUrl with
      | some v => .val v
      | none => .undef
    timeout := match envTimeout with
      | some v => if v ≠ "" then .val (jsParseInt v) else .undef
      | none => .undef }

/-! ## Form encoding (`URLSearchParams`)

`generateAccessToken` submits the form with
`new URLSearchParams({api_key, request_token, checksum})`; its serialization
percent-encodes each UTF-8 byte except the urlencoded-safe set
(alphanumerics and `*-._`), with space written as `+`. -/

def hexDigitUpper (n : Nat) : Char :=
  if n < 10 then Char.ofNat (48 + n) else Char.ofNat (55 + n)

/-- Serialize one byte per the `application/x-www-form-urlencoded` rules. -/
def urlencodeByte (b : Nat) : List Char :=
  if b = 0x20 then ['+']
  else if b = 0x2A ∨ b = 0x2D ∨ b = 0x2E ∨ b = 0x5F ∨
          (0x30 ≤ b ∧ b ≤ 0x39) ∨ (0x41 ≤ b ∧ b ≤ 0x5A) ∨ (0x61 ≤ b ∧ b ≤ 0x7A) then
    [Char.ofNat b]
  else ['%', hexDigitUpper (b / 16), hexDigitUpper (b % 16)]

def urlencode (s : String) : String := ⟨((utf8Bytes s).map urlencodeByte).flatten⟩

/-- `URLSearchParams.toString()` for the exchange form, in insertion order. -/
def encodeForm (f : FormData) : String :=
  "api_key=" ++ urlencode f.api_key ++ "&request_token=" ++ urlencode f.request_token ++
    "&checksum=" ++ urlencode f.checksum

deriving instance DecidableEq for Except

/-! ## Lemmas about the persistence model -/

lemma hasKey_eq (c : Char) (cs : List Char) :
    hasKey (c :: cs) = (accessTokenKey.isPrefixOf (c :: cs) || hasKey cs) := rfl

lemma linesOf_ne_nil (cs : List Char) : linesOf cs ≠ [] := by
  induction cs with
  | nil => simp [linesOf]
  | cons c cs ih =>
      by_cases h : c = '\n'
      · simp [linesOf, h]
      · simp only [linesOf, if_neg h]
        cases hl : linesOf cs with
        | nil => exact absurd hl ih
        | cons l ls => simp [List.modifyHead]

lemma modifyHead_modifyHead (f g : List Char → List Char) (l : List (List Char)) :
    (l.modifyHead g).modifyHead f = l.modifyHead (fun x => f (g x)) := by
  cases l <;> simp [List.modifyHead]

lemma tail_modifyHead (f : List Char → List Char) (l : List (List Char)) :
    (l.modifyHead f).tail = l.tail := by
  cases l <;> simp [List.modifyHead]

lemma linesOf_append_no_nl (p : List Char) (hp : '\n' ∉ p) (xs : List Char) :
    linesOf (p ++ xs) = (linesOf xs).modifyHead (p ++ ·) := by
  induction p with
  | nil =>
      simp only [List.nil_append]
      cases hx : linesOf xs <;> simp [hx, List.modifyHead]
  | cons c p ih =>
      have hc : c ≠ '\n' := fun h => hp (h ▸ List.mem_cons_self c p)
      have hp' : '\n' ∉ p := fun h => hp (List.mem_cons_of_mem c h)
      simp only [List.cons_append, linesOf, if_neg hc, List.append_eq, ih hp',
        modifyHead_modifyHead]

lemma linesOf_dropToEol (xs : List Char) :
    linesOf (dropToEol xs) = [] :: (linesOf xs).tail := by
  induction xs with
  | nil => simp [dropToEol, linesOf]
  | cons c cs ih =>
      by_cases h : c = '\n'
      · simp [dropToEol, linesOf, h]
      · simp only [dropToEol, if_neg h, linesOf, ih, tail_modifyHead]

lemma linesOf_head (xs : List Char) :
    ∃ ls, linesOf xs = xs.takeWhile (· != '\n') :: ls := by
  induction xs with
  | nil => exact ⟨[], rfl⟩
  | cons c cs ih =>
      by_cases h : c = '\n'
      · subst h
        refine ⟨linesOf cs, ?_⟩
        simp [linesOf, List.takeWhile_cons]
      · obtain ⟨ls, hls⟩ := ih
        refine ⟨ls, ?_⟩
        have hb : (c != '\n') = true := by simp [bne_iff_ne, h]
        simp [linesOf, h, hls, List.takeWhile_cons, hb, List.modifyHead]

lemma hasKey_of_key_le (l : List Char) (h : accessTokenKey <+: l) : hasKey l = true := by
  obtain ⟨t, rfl⟩ := h
  have h1 : accessTokenKey.isPrefixOf (accessTokenKey ++ t) = true :=
    List.isPrefixOf_iff_prefix.mpr (List.prefix_append _ _)
  cases h2 : accessTokenKey ++ t with
  | nil =>
      have hk : accessTokenKey = [] := by
        cases hx : accessTokenKey with
        | nil => rfl
        | cons a as => rw [hx] at h2; simp at h2
      exact absurd hk (by decide)
  | cons c cs =>
      rw [h2] at h1
      rw [hasKey_eq, h1, Bool.true_or]

lemma replaceLine_from_key (tok l : List Char) (h : accessTokenKey <+: l) :
    replaceLine tok l = accessTokenKey ++ tok := by
  obtain ⟨t, rfl⟩ := h
  have h1 : accessTokenKey.isPrefixOf (accessTokenKey ++ t) = true :=
    List.isPrefixOf_iff_prefix.mpr (List.prefix_append _ _)
  cases h2 : accessTokenKey ++ t with
  | nil =>
      have hk : accessTokenKey = [] := by
        cases hx : accessTokenKey with
        | nil => rfl
        | cons a as => rw [hx] at h2; simp at h2
      exact absurd hk (by decide)
  | cons c cs =>
      rw [h2] at h1
      simp only [replaceLine, if_pos h1]

lemma takeWhile_prefix_of_no_nl :
    ∀ (p : List Char), '\n' ∉ p → ∀ t, p <+: ((p ++ t).takeWhile (· != '\n'))
  | [], _, _ => List.nil_prefix
  | c :: p, hp, t => by
      have hc : c ≠ '\n' := fun h => hp (h ▸ List.mem_cons_self c p)
      have hp' : '\n' ∉ p := fun h => hp (List.mem_cons_of_mem c h)
      have hb : (c != '\n') = true := by simp [bne_iff_ne, hc]
      simp only [List.cons_append, List.takeWhile_cons, hb, if_true]
      exact List.cons_prefix_cons.mpr ⟨rfl, takeWhile_prefix_of_no_nl p hp' t⟩

lemma exists_line_hasKey (cs : List Char) (h : hasKey cs = true) :
    ∃ l ∈ linesOf cs, hasKey l = true := by
  induction cs with
  | nil => simp [hasKey] at h
  | cons c cs ih =>
      rw [hasKey_eq] at h
      cases (Bool.or_eq_true _ _).mp h with
      | inl hpre =>
          have hpre' : accessTokenKey <+: c :: cs := List.isPrefixOf_iff_prefix.mp hpre
          obtain ⟨t, ht⟩ := hpre'
          have h2 : accessTokenKey <+: (c :: cs).takeWhile (· != '\n') := by
            rw [← ht]
            exact takeWhile_prefix_of_no_nl _ (by decide) t
          obtain ⟨ls, hls⟩ := linesOf_head (c :: cs)
          refine ⟨(c :: cs).takeWhile (· != '\n'), ?_, hasKey_of_key_le _ h2⟩
          rw [hls]
          exact List.mem_cons_self _ _
      | inr htail =>
          obtain ⟨l, hmem, hkey⟩ := ih htail
          by_cases hc : c = '\n'
          · subst hc
            refine ⟨l, ?_, hkey⟩
            simp only [linesOf, if_pos rfl]
            exact List.mem_cons_of_mem _ hmem
          · cases hl : linesOf cs with
            | nil => exact absurd hl (linesOf_ne_nil cs)
            | cons l0 ls =>
                rw [hl] at hmem
                cases List.mem_cons.mp hmem with
                | inl heq =>
                    subst heq
                    refine ⟨c :: l, ?_, ?_⟩
                    · simp [linesOf, hc, hl, List.modifyHead]
                    · rw [hasKey_eq, hkey, Bool.or_true]
                | inr hin =>
                    refine ⟨l, ?_, hkey⟩
                    simp only [linesOf, if_neg hc, hl, List.modifyHead]
                    exact List.mem_cons_of_mem _ hin

lemma replaceEnvToken_no_key (tok cs : List Char) (h : hasKey cs = false) :
    replaceEnvToken tok cs = cs := by
  induction cs with
  | nil => rfl
  | cons c cs ih =>
      rw [hasKey_eq] at h
      have h1 := (Bool.or_eq_false_iff.mp h).1
      have h2 := (Bool.or_eq_false_iff.mp h).2
      simp only [replaceEnvToken]
      rw [if_neg (by simp [h1]), ih h2]

lemma linesOf_replaceEnvToken (tok : List Char) (ht : '\n' ∉ tok) :
    ∀ cs, linesOf (replaceEnvToken tok cs) = replaceFirstLine tok (linesOf cs)
  | [] => by simp [replaceEnvToken, linesOf, replaceFirstLine, hasKey]
  | c :: cs => by
      have hKt : '\n' ∉ accessTokenKey ++ tok := by
        intro hmem
        cases List.mem_append.mp hmem with
        | inl h => exact absurd h (by decide)
        | inr h => exact ht h
      by_cases hpre : accessTokenKey.isPrefixOf (c :: cs) = true
      · obtain ⟨rest, hrest⟩ := List.isPrefixOf_iff_prefix.mp hpre
        simp only [replaceEnvToken, if_pos hpre]
        rw [← hrest, List.drop_left,
          linesOf_append_no_nl (accessTokenKey ++ tok) hKt,
          linesOf_dropToEol,
          linesOf_append_no_nl accessTokenKey (by decide)]
        cases hr : linesOf rest with
        | nil => exact absurd hr (linesOf_ne_nil rest)
        | cons r0 rs =>
            have hk : hasKey (accessTokenKey ++ r0) = true :=
              hasKey_of_key_le _ (List.prefix_append _ _)
            simp only [List.modifyHead, List.tail_cons, replaceFirstLine, hk, if_pos,
              List.append_nil,
              replaceLine_from_key tok _ (List.prefix_append accessTokenKey r0)]
      · simp only [replaceEnvToken, if_neg hpre]
        by_cases hc : c = '\n'
        · subst hc
          simp only [linesOf, if_pos rfl, linesOf_replaceEnvToken tok ht cs]
          simp [replaceFirstLine, hasKey]
        · simp only [linesOf, if_neg hc, linesOf_replaceEnvToken tok ht cs]
          cases hl : linesOf cs with
          | nil => exact absurd hl (linesOf_ne_nil cs)
          | cons l0 ls =>
              have hl0 : l0 <+: cs := by
                obtain ⟨ls', hls'⟩ := linesOf_head cs
                rw [hls'] at hl
                rw [← (List.cons_eq_cons.mp hl).1]
                exact List.takeWhile_prefix _
              have hnp : accessTokenKey.isPrefixOf (c :: l0) = false := by
                rw [Bool.eq_false_iff]
                intro habs
                exact hpre ( List.isPrefixOf_iff_prefix.mpr
                  (( List.isPrefixOf_iff_prefix.mp habs).trans
                    (List.cons_prefix_cons.mpr ⟨rfl, hl0⟩)))
              have hkeq : hasKey (c :: l0) = hasKey l0 := by
                rw [hasKey_eq, hnp, Bool.false_or]
              by_cases hk : hasKey l0 = true
              · simp only [replaceFirstLine, hk, if_pos, List.modifyHead, hkeq,
                  replaceLine, hnp, Bool.false_eq_true, if_false]
              · have hk' : hasKey l0 = false := Bool.eq_false_iff.mpr hk
                simp only [List.modifyHead, replaceFirstLine, hkeq, hk',
                  Bool.false_eq_true, if_false]

lemma replaceFirstLine_no_key (tok : List Char) (ls : List (List Char))
    (h : ∀ l ∈ ls, hasKey l = false) : replaceFirstLine tok ls = ls := by
  induction ls with
  | nil => rfl
  | cons l ls ih =>
      have h0 : hasKey l = false := h l (List.mem_cons_self _ _)
      simp only [replaceFirstLine, h0, Bool.false_eq_true, if_false]
      rw [ih fun x hx => h x (List.mem_cons_of_mem _ hx)]

lemma replaceFirstLine_eq_set (tok : List Char) (ls : List (List Char))
    (h : ∀ l ∈ ls, hasKey l = true → accessTokenKey <+: l) :
    replaceFirstLine tok ls = ls.set (ls.findIdx hasKey) (accessTokenKey ++ tok) := by
  induction ls with
  | nil => rfl
  | cons l ls ih =>
      by_cases hk : hasKey l = true
      · simp only [replaceFirstLine, hk, if_pos, List.findIdx_cons, cond_true, List.set]
        rw [replaceLine_from_key tok l (h l (List.mem_cons_self _ _) hk)]
      · have hk' : hasKey l = false := Bool.eq_false_iff.mpr hk
        simp only [replaceFirstLine, if_neg hk, List.findIdx_cons, hk', cond_false, List.set]
        rw [ih fun x hx hkx => h x (List.mem_cons_of_mem _ hx) hkx]
        simp

lemma replaceFirstLine_get_ne (tok : List Char) :
    ∀ (ls : List (List Char)) (j : Nat), j ≠ ls.findIdx hasKey →
      (replaceFirstLine tok ls)[j]? = ls[j]?
  | [], _, _ => rfl
  | l :: ls, j, hj => by
      by_cases hk : hasKey l = true
      · have hj0 : j ≠ 0 := by
          rw [List.findIdx_cons, hk, cond_true] at hj
          exact hj
        cases j with
        | zero => exact absurd rfl hj0
        | succ j' => simp only [replaceFirstLine, hk, if_pos, List.getElem?_cons_succ]
      · have hk' : hasKey l = false := Bool.eq_false_iff.mpr hk
        rw [List.findIdx_cons, hk', cond_false] at hj
        cases j with
        | zero => simp only [replaceFirstLine, if_neg hk, List.getElem?_cons_zero]
        | succ j' =>
            simp only [replaceFirstLine, if_neg hk, List.getElem?_cons_succ]
            exact replaceFirstLine_get_ne tok ls j' fun hh => hj (by rw [hh])

lemma replaceFirstLine_length (tok : List Char) (ls : List (List Char)) :
    (replaceFirstLine tok ls).length = ls.length := by
  induction ls with
  | nil => rfl
  | cons l ls ih =>
      by_cases hk : hasKey l = true
      · simp [replaceFirstLine, hk]
      · simp [replaceFirstLine, Bool.eq_false_iff.mpr hk, ih]

/-! ## Lemmas about the authentication model -/

lemma interactiveAuth_blank_eq (k s p : String) (http : HttpOutcome SessionTokenResponse)
    (h : jsTrim p = "") :
    interactiveAuth k s p http = (.error "Request token is required", []) := by
  unfold interactiveAuth
  rw [if_pos (Or.inr h)]

lemma interactiveAuth_trace_nonblank (k s p : String) (http : HttpOutcome SessionTokenResponse)
    (h : jsTrim p ≠ "") :
    (interactiveAuth k s p http).2 =
      [.sessionTokenPost
        { api_key := k, request_token := jsTrim p, checksum := checksum k (jsTrim p) s }] := by
  have hp : ¬(p = "" ∨ jsTrim p = "") := by
    rintro (rfl | h2)
    · exact h rfl
    · exact h h2
  unfold interactiveAuth
  rw [if_neg hp]
  cases http with
  | ok r => by_cases hs : r.status = "success" <;> simp [generateAccessToken, hs]
  | error m => simp [generateAccessToken]

lemma interactiveAuth_ok_eq (k s p : String) (r : SessionTokenResponse)
    (h : jsTrim p ≠ "") (hs : r.status = "success") :
    interactiveAuth k s p (.ok r) =
      (.ok r.data.access_token,
       [.sessionTokenPost
         { api_key := k, request_token := jsTrim p, checksum := checksum k (jsTrim p) s }]) := by
  have hp : ¬(p = "" ∨ jsTrim p = "") := by
    rintro (rfl | h2)
    · exact h rfl
    · exact h h2
  unfold interactiveAuth
  rw [if_neg hp]
  simp [generateAccessToken, hs]

lemma exchangeAndPersist_blank (k s p : String) (http : HttpOutcome SessionTokenResponse)
    (h : jsTrim p = "") :
    exchangeAndPersist k s p http =
      (.error ("Authentication failed: " ++ "Request token is required"), []) := by
  unfold exchangeAndPersist
  rw [interactiveAuth_blank_eq k s p http h]

lemma exchangeAndPersist_ok (k s p : String) (r : SessionTokenResponse)
    (h : jsTrim p ≠ "") (hs : r.status = "success") :
    exchangeAndPersist k s p (.ok r) =
      (.ok r.data.access_token,
       [.sessionTokenPost
          { api_key := k, request_token := jsTrim p, checksum := checksum k (jsTrim p) s },
        .persist r.data.access_token]) := by
  unfold exchangeAndPersist
  rw [interactiveAuth_ok_eq k s p r h hs]
  rfl

lemma exchangeAndPersist_trace_shape (k s p : String) (http : HttpOutcome SessionTokenResponse) :
    (exchangeAndPersist k s p http).2 = [] ∨
    (exchangeAndPersist k s p http).2 =
      [.sessionTokenPost
        { api_key := k, request_token := jsTrim p, checksum := checksum k (jsTrim p) s }] ∨
    ∃ tok, (exchangeAndPersist k s p http).2 =
      [.sessionTokenPost
        { api_key := k, request_token := jsTrim p, checksum := checksum k (jsTrim p) s },
       .persist tok] := by
  by_cases h : jsTrim p = ""
  · left
    rw [exchangeAndPersist_blank k s p http h]
  · unfold exchangeAndPersist
    cases hia : interactiveAuth k s p http with
    | mk res evs =>
        have hevs : evs =
            [.sessionTokenPost
              { api_key := k, request_token := jsTrim p, checksum := checksum k (jsTrim p) s }] := by
          have ht := interactiveAuth_trace_nonblank k s p http h
          rw [hia] at ht
          exact ht
        subst hevs
        cases res with
        | ok tok => right; right; exact ⟨tok, rfl⟩
        | error e => right; left; rfl

lemma probeCount_eap (k s p : String) (http : HttpOutcome SessionTokenResponse) :
    probeCount (exchangeAndPersist k s p http).2 = 0 := by
  rcases exchangeAndPersist_trace_shape k s p http with h | h | ⟨tok, h⟩ <;>
    rw [h] <;> simp [probeCount, List.filter, Event.isProbe]

lemma exchangeCount_eap_le (k s p : String) (http : HttpOutcome SessionTokenResponse) :
    exchangeCount (exchangeAndPersist k s p http).2 ≤ 1 := by
  rcases exchangeAndPersist_trace_shape k s p http with h | h | ⟨tok, h⟩ <;>
    rw [h] <;> simp [exchangeCount, List.filter, Event.isExchangePost]

lemma exchangeCount_eap_nonblank (k s p : String) (http : HttpOutcome SessionTokenResponse)
    (h : jsTrim p ≠ "") :
    exchangeCount (exchangeAndPersist k s p http).2 = 1 := by
  unfold exchangeAndPersist
  cases hia : interactiveAuth k s p http with
  | mk res evs =>
      have hevs : evs =
          [.sessionTokenPost
            { api_key := k, request_token := jsTrim p, checksum := checksum k (jsTrim p) s }] := by
        have ht := interactiveAuth_trace_nonblank k s p http h
        rw [hia] at ht
        exact ht
      subst hevs
      cases res <;> simp [exchangeCount, List.filter, Event.isExchangePost]

lemma exchangeCount_cons_probe (a b : String) (tr : List Event) :
    exchangeCount (.probe a b :: tr) = exchangeCount tr := by
  simp [exchangeCount, List.filter_cons, Event.isExchangePost]

lemma persistCalls_cons_probe (a b : String) (tr : List Event) :
    persistCalls (.probe a b :: tr) = persistCalls tr := by
  simp [persistCalls, List.filterMap_cons]

/-! ## Claim theorems -/

/-- C5: the validation probe never throws (its embedding is total with return
type `Bool`) and returns `true` exactly when the profile call completed and
the reply's status field equals `"success"`; every other outcome — a thrown
axios error (network failure, timeout, HTTP error status) or a reply whose
status field is missing or different — collapses to `false`. -/
theorem validate_true_iff_success (k t : String) (http : HttpOutcome ProfileResponse) :
    validateAccessToken k t http = true ↔
      ∃ r, http = HttpOutcome.ok r ∧ r.status = some "success" := by
  cases http with
  | ok r => simp [validateAccessToken]
  | error m => simp [validateAccessToken]

/-- C6: an empty or all-whitespace pasted request token makes `interactiveAuth`
fail with `Request token is required` and an empty effect trace, so
`generateAccessToken` and its `/session/token` POST are never invoked. -/
theorem interactive_blank_input_fails_fast (k s p : String)
    (http : HttpOutcome SessionTokenResponse) (h : jsTrim p = "") :
    interactiveAuth k s p http = (.error "Request token is required", []) :=
  interactiveAuth_blank_eq k s p http h

/-- Witness for C6 at a concrete all-whitespace paste. -/
theorem interactive_blank_input_fails_fast_witness :
    jsTrim " \t " = "" ∧
      interactiveAuth "abc" "xyz" " \t " (.error "network down") =
        (.error "Request token is required", []) :=
  ⟨by decide,
   interactive_blank_input_fails_fast "abc" "xyz" " \t " (.error "network down") (by decide)⟩

/-- C10: whenever the trimmed paste is non-blank, the exchange operates on the
trimmed string: the single `/session/token` POST carries a `request_token`
field equal to `jsTrim` of the paste and a checksum equal to the SHA-256 hex
digest of `apiKey ++ trimmedToken ++ apiSecret`, so surrounding whitespace in
the pasted input never reaches the exchange. -/
theorem exchange_uses_trimmed_token (k s p : String)
    (http : HttpOutcome SessionTokenResponse) (h : jsTrim p ≠ "") :
    (interactiveAuth k s p http).2 =
      [.sessionTokenPost
        { api_key := k, request_token := jsTrim p
          checksum := sha256Hex (k ++ jsTrim p ++ s) }] :=
  interactiveAuth_trace_nonblank k s p http h

/-- Witness for C10 at a paste with surrounding whitespace. -/
theorem exchange_uses_trimmed_token_witness :
    jsTrim " tok123 " ≠ "" ∧
      (interactiveAuth "abc" "xyz" " tok123 " (.error "boom")).2 =
        [.sessionTokenPost
          { api_key := "abc", request_token := jsTrim " tok123 "
            checksum := sha256Hex ("abc" ++ jsTrim " tok123 " ++ "xyz") }] :=
  ⟨by decide, exchange_uses_trimmed_token "abc" "xyz" " tok123 " (.error "boom") (by decide)⟩

/-- C2 counterexample: the claim's universal order-sensitivity fails on the
code. With requestToken `"a"` and consumerSecret `"aa"` the two inputs differ,
yet swapping them leaves the concatenation `k ++ r ++ s` — and hence the
digest — unchanged. -/
theorem checksum_swap_collision :
    ("a" : String) ≠ "aa" ∧ checksum "k" "a" "aa" = checksum "k" "aa" "a" :=
  ⟨by decide, rfl⟩

/-- C2 (amended): the submitted checksum is the hexadecimal SHA-256 digest of
`consumerKey ++ requestToken ++ consumerSecret` with no separator; in the
concrete scenario k=abc, s=xyz, r=tok123 the POST event carries exactly those
fields, the form-encoded body is exactly
`api_key=abc&request_token=tok123&checksum=<sha256 hex of abctok123xyz>`, and
there swapping the request token and the secret yields a different digest
(order sensitivity holds whenever the two concatenations differ and do not
collide, which the computation verifies at the scenario inputs). -/
theorem checksum_spec_and_concrete_body (http : HttpOutcome SessionTokenResponse) :
    (∀ k r s, checksum k r s = sha256Hex (k ++ r ++ s)) ∧
    (generateAccessToken "abc" "xyz" "tok123" http).2 =
      [.sessionTokenPost
        { api_key := "abc", request_token := "tok123"
          checksum := checksum "abc" "tok123" "xyz" }] ∧
    encodeForm
        { api_key := "abc", request_token := "tok123"
          checksum := checksum "abc" "tok123" "xyz" } =
      "api_key=abc&request_token=tok123&checksum=fa80deef8ae654d844403ec6278b2ac9062e8214dc9c5a1107891b8f915cd9af" ∧
    checksum "abc" "tok123" "xyz" ≠ checksum "abc" "xyz" "tok123" := by
  refine ⟨fun k r s => rfl, ?_, by decide, by decide⟩
  cases http with
  | ok r => by_cases hs : r.status = "success" <;> simp [generateAccessToken, hs]
  | error m => simp [generateAccessToken]

/-- C8 (code bug): with `ZERODHA_BASE_URL` and `REQUEST_TIMEOUT` unset, the
startup config object still carries present-but-undefined `baseUrl` and
`timeout` keys, and the constructor's spread `{defaults, ...config}`
overwrites both written defaults with `undefined`: the axios instance ends up
with no base URL at all and timeout `0` (no timeout) instead of
`https://api.kite.trade` and 30000 ms.  The second conjunct shows the
constructor's defaults would take effect only for genuinely absent keys,
which the startup path never produces. -/
theorem client_defaults_clobbered_by_spread (k s a : String) :
    mkZerodhaClient (startupConfig none none k s a) =
      { baseURL := none, timeout := 0 } ∧
    mkZerodhaClient
        { apiKey := k, apiSecret := s, accessToken := a
          baseUrl := .absent, timeout := .absent } =
      { baseURL := some "https://api.kite.trade", timeout := 30000 } :=
  ⟨rfl, rfl⟩

/-- C3 counterexample: the empty string is a present existing token distinct
from the placeholder sentinel, and the probe oracle would answer success for
it — yet the resolver treats the empty string as falsy, never consults the
probe, runs the interactive exchange (one POST) and returns the freshly
exchanged token instead of the existing one. -/
theorem resolver_empty_token_cex :
    ("" : String) ≠ placeholderToken ∧
    validateAccessToken "k" "" (.ok ⟨some "success"⟩) = true ∧
    (getValidAccessToken "k" "s" (some "")
        ⟨.ok ⟨some "success"⟩, "tok123",
         .ok ⟨"success", "", ⟨"NEWTOK", "pub", "lt"⟩⟩⟩).1 ≠ .ok "" ∧
    exchangeCount (getValidAccessToken "k" "s" (some "")
        ⟨.ok ⟨some "success"⟩, "tok123",
         .ok ⟨"success", "", ⟨"NEWTOK", "pub", "lt"⟩⟩⟩).2 ≠ 0 :=
  ⟨by decide, by decide, by decide, by decide⟩

/-- C3 (amended): for an existing token that is present, non-empty and
distinct from the placeholder sentinel, a successful probe makes the resolver
return exactly that token unchanged, with a trace holding only the probe
event: zero `/session/token` POSTs and zero persistence writes. -/
theorem resolver_returns_valid_existing (k s t : String) (env : ResolverEnv)
    (hne : t ≠ "") (hnp : t ≠ placeholderToken)
    (hv : validateAccessToken k t env.profileHttp = true) :
    getValidAccessToken k s (some t) env = (.ok t, [.probe k t]) ∧
      exchangeCount (getValidAccessToken k s (some t) env).2 = 0 ∧
      persistCalls (getValidAccessToken k s (some t) env).2 = [] := by
  have hmain : getValidAccessToken k s (some t) env = (.ok t, [.probe k t]) := by
    simp only [getValidAccessToken]
    rw [if_pos ⟨hne, hnp⟩, if_pos hv]
  refine ⟨hmain, ?_, ?_⟩ <;> rw [hmain] <;> rfl

/-- Witness for C3 at a concrete valid existing token. -/
theorem resolver_returns_valid_existing_witness :
    ("validTok" : String) ≠ "" ∧ ("validTok" : String) ≠ placeholderToken ∧
    validateAccessToken "key" "validTok" (.ok ⟨some "success"⟩) = true ∧
    getValidAccessToken "key" "sec" (some "validTok")
        ⟨.ok ⟨some "success"⟩, "whatever", .error "down"⟩ =
      (.ok "validTok", [.probe "key" "validTok"]) :=
  ⟨by decide, by decide, by decide,
   (resolver_returns_valid_existing "key" "sec" "validTok"
      ⟨.ok ⟨some "success"⟩, "whatever", .error "down"⟩
      (by decide) (by decide) (by decide)).1⟩

/-- C4: when the existing token is absent or equals the placeholder sentinel,
the resolver proceeds directly to the interactive exchange — its run
coincides with `exchangeAndPersist` — and its trace contains no probe event,
so `validateAccessToken` is never invoked. -/
theorem resolver_skips_probe_when_absent_or_sentinel (k s : String)
    (existingToken : Option String) (env : ResolverEnv)
    (h : existingToken = none ∨ existingToken = some placeholderToken) :
    getValidAccessToken k s existingToken env =
        exchangeAndPersist k s env.pasted env.sessionHttp ∧
      probeCount (getValidAccessToken k s existingToken env).2 = 0 := by
  have hmain : getValidAccessToken k s existingToken env =
      exchangeAndPersist k s env.pasted env.sessionHttp := by
    rcases h with rfl | rfl
    · rfl
    · simp only [getValidAccessToken]
      rw [if_neg fun hh => hh.2 rfl]
  refine ⟨hmain, ?_⟩
  rw [hmain]
  exact probeCount_eap k s env.pasted env.sessionHttp

/-- Witness for C4 with an absent existing token. -/
theorem resolver_skips_probe_when_absent_or_sentinel_witness :
    getValidAccessToken "key" "sec" none ⟨.error "x", "tok123", .error "down"⟩ =
        exchangeAndPersist "key" "sec" "tok123" (.error "down") ∧
      probeCount (getValidAccessToken "key" "sec" none
        ⟨.error "x", "tok123", .error "down"⟩).2 = 0 :=
  resolver_skips_probe_when_absent_or_sentinel "key" "sec" none
    ⟨.error "x", "tok123", .error "down"⟩ (Or.inl rfl)

/-- C1 counterexample: with no usable existing token but a blank paste, the
run performs zero `/session/token` POSTs, not exactly one — the exchange is
aborted before any HTTP call. -/
theorem resolver_blank_paste_zero_exchanges_cex :
    exchangeCount (getValidAccessToken "k" "s" none
        ⟨.error "x", "", .error "down"⟩).2 = 0 ∧ (0 : Nat) ≠ 1 :=
  ⟨rfl, by decide⟩

/-- C1 (amended): whenever no usable existing token is supplied (absent,
empty, or the placeholder sentinel) or the probe rejects the supplied one,
the resolver performs at most one `/session/token` POST — exactly one when
the pasted request token is non-blank — and when that exchange succeeds it
calls persistence exactly once, with the newly obtained bearer token, as the
last recorded effect before the token is returned. -/
theorem resolver_single_exchange_and_persist (k s : String)
    (existingToken : Option String) (env : ResolverEnv)
    (h : existingToken = none ∨ existingToken = some "" ∨
      existingToken = some placeholderToken ∨
      ∃ t, existingToken = some t ∧ t ≠ "" ∧ t ≠ placeholderToken ∧
        validateAccessToken k t env.profileHttp = false) :
    exchangeCount (getValidAccessToken k s existingToken env).2 ≤ 1 ∧
    (jsTrim env.pasted ≠ "" →
      exchangeCount (getValidAccessToken k s existingToken env).2 = 1) ∧
    ∀ r, env.sessionHttp = .ok r → r.status = "success" → jsTrim env.pasted ≠ "" →
      (getValidAccessToken k s existingToken env).1 = .ok r.data.access_token ∧
      persistCalls (getValidAccessToken k s existingToken env).2 =
        [r.data.access_token] ∧
      (getValidAccessToken k s existingToken env).2.getLast? =
        some (.persist r.data.access_token) := by
  have hred : getValidAccessToken k s existingToken env =
        exchangeAndPersist k s env.pasted env.sessionHttp ∨
      ∃ t, getValidAccessToken k s existingToken env =
        ((exchangeAndPersist k s env.pasted env.sessionHttp).1,
         .probe k t :: (exchangeAndPersist k s env.pasted env.sessionHttp).2) := by
    rcases h with rfl | rfl | rfl | ⟨t, rfl, h1, h2, h3⟩
    · exact Or.inl rfl
    · refine Or.inl ?_
      simp only [getValidAccessToken]
      rw [if_neg fun hh => hh.1 rfl]
    · refine Or.inl ?_
      simp only [getValidAccessToken]
      rw [if_neg fun hh => hh.2 rfl]
    · refine Or.inr ⟨t, ?_⟩
      simp only [getValidAccessToken]
      rw [if_pos ⟨h1, h2⟩, if_neg (by rw [h3]; exact Bool.false_ne_true)]
  rcases hred with heq | ⟨t, heq⟩
  · refine ⟨?_, ?_, ?_⟩
    · rw [heq]; exact exchangeCount_eap_le k s env.pasted env.sessionHttp
    · intro hnb; rw [heq]; exact exchangeCount_eap_nonblank k s env.pasted env.sessionHttp hnb
    · intro r hr hs hnb
      rw [heq, hr, exchangeAndPersist_ok k s env.pasted r hnb hs]
      refine ⟨rfl, ?_, ?_⟩ <;> rfl
  · refine ⟨?_, ?_, ?_⟩
    · rw [heq]
      rw [show ((exchangeAndPersist k s env.pasted env.sessionHttp).1,
          Event.probe k t :: (exchangeAndPersist k s env.pasted env.sessionHttp).2).2 =
          Event.probe k t :: (exchangeAndPersist k s env.pasted env.sessionHttp).2 from rfl]
      rw [exchangeCount_cons_probe]
      exact exchangeCount_eap_le k s env.pasted env.sessionHttp
    · intro hnb
      rw [heq]
      rw [show ((exchangeAndPersist k s env.pasted env.sessionHttp).1,
          Event.probe k t :: (exchangeAndPersist k s env.pasted env.sessionHttp).2).2 =
          Event.probe k t :: (exchangeAndPersist k s env.pasted env.sessionHttp).2 from rfl]
      rw [exchangeCount_cons_probe]
      exact exchangeCount_eap_nonblank k s env.pasted env.sessionHttp hnb
    · intro r hr hs hnb
      rw [heq, hr, exchangeAndPersist_ok k s env.pasted r hnb hs]
      refine ⟨rfl, ?_, ?_⟩ <;> rfl

/-- Witness for C1 at a successful concrete run with no existing token. -/
theorem resolver_single_exchange_and_persist_witness :
    exchangeCount (getValidAccessToken "k" "s" none
        ⟨.error "x", "tok123", .ok ⟨"success", "", ⟨"NEWTOK", "pub", "lt"⟩⟩⟩).2 ≤ 1 ∧
    exchangeCount (getValidAccessToken "k" "s" none
        ⟨.error "x", "tok123", .ok ⟨"success", "", ⟨"NEWTOK", "pub", "lt"⟩⟩⟩).2 = 1 ∧
    (getValidAccessToken "k" "s" none
        ⟨.error "x", "tok123", .ok ⟨"success", "", ⟨"NEWTOK", "pub", "lt"⟩⟩⟩).1 =
      .ok "NEWTOK" ∧
    persistCalls (getValidAccessToken "k" "s" none
        ⟨.error "x", "tok123", .ok ⟨"success", "", ⟨"NEWTOK", "pub", "lt"⟩⟩⟩).2 =
      ["NEWTOK"] ∧
    (getValidAccessToken "k" "s" none
        ⟨.error "x", "tok123", .ok ⟨"success", "", ⟨"NEWTOK", "pub", "lt"⟩⟩⟩).2.getLast? =
      some (.persist "NEWTOK") := by
  have H := resolver_single_exchange_and_persist "k" "s" none
    ⟨.error "x", "tok123", .ok ⟨"success", "", ⟨"NEWTOK", "pub", "lt"⟩⟩⟩ (Or.inl rfl)
  have H3 := H.2.2 ⟨"success", "", ⟨"NEWTOK", "pub", "lt"⟩⟩ rfl rfl (by decide)
  exact ⟨H.1, H.2.1 (by decide), H3.1, H3.2.1, H3.2.2⟩

/-- C7 counterexample: the replacement regex is not anchored to a line start.
In a store whose first key occurrence sits mid-line, `updateEnvFile` rewrites
the tail of that unrelated line and leaves the actual access-token line
untouched: the store contains a line starting with the key (line 1), yet after
the write line 1 is unchanged while line 0 is not byte-identical. -/
theorem updateEnv_midline_occurrence_cex :
    (accessTokenKey.isPrefixOf
        ((linesOf "A=ZERODHA_ACCESS_TOKEN=x\nZERODHA_ACCESS_TOKEN=old".data)[1]?.getD [])) =
      true ∧
    (linesOf (updateEnvContent "NEW"
        (some "A=ZERODHA_ACCESS_TOKEN=x\nZERODHA_ACCESS_TOKEN=old".data)))[1]? =
      (linesOf "A=ZERODHA_ACCESS_TOKEN=x\nZERODHA_ACCESS_TOKEN=old".data)[1]? ∧
    (linesOf (updateEnvContent "NEW"
        (some "A=ZERODHA_ACCESS_TOKEN=x\nZERODHA_ACCESS_TOKEN=old".data)))[0]? ≠
      (linesOf "A=ZERODHA_ACCESS_TOKEN=x\nZERODHA_ACCESS_TOKEN=old".data)[0]? :=
  ⟨by decide, by decide, by decide⟩

/-- C7 (amended): provided every line containing the key starts with it (the
regex is unanchored, so a mid-line occurrence would be rewritten instead —
see the counterexample), persistence against a store containing an
access-token line replaces exactly the first such line with
`ZERODHA_ACCESS_TOKEN=<token>` and leaves every other line byte-identical:
the resulting line list is the old one with only the first matching index
overwritten.  The token and content hypotheses confine the statement to the
modelling scope stated with `replaceEnvToken`. -/
theorem updateEnv_replaces_only_token_line (tok : String) (c : List Char)
    (hstart : ∀ l ∈ linesOf c, hasKey l = true → accessTokenKey <+: l)
    (hex : ∃ l ∈ linesOf c, accessTokenKey.isPrefixOf l = true)
    (htok : '\n' ∉ tok.data ∧ '\r' ∉ tok.data ∧ '$' ∉ tok.data)
    (hc : '\r' ∉ c) :
    linesOf (updateEnvContent tok (some c)) =
        (linesOf c).set ((linesOf c).findIdx hasKey) (accessTokenKey ++ tok.data) ∧
      ∀ j, j ≠ (linesOf c).findIdx hasKey →
        (linesOf (updateEnvContent tok (some c)))[j]? = (linesOf c)[j]? := by
  have hmain : linesOf (updateEnvContent tok (some c)) =
      (linesOf c).set ((linesOf c).findIdx hasKey) (accessTokenKey ++ tok.data) := by
    simp only [updateEnvContent, Option.getD]
    rw [linesOf_replaceEnvToken tok.data htok.1 c, replaceFirstLine_eq_set tok.data _ hstart]
  exact ⟨hmain, fun j hj => by
    rw [hmain]
    exact List.getElem?_set_ne fun hh => hj hh.symm⟩

/-- Witness for C7 at a three-line store with one access-token line. -/
theorem updateEnv_replaces_only_token_line_witness :
    (∀ l ∈ linesOf "ZERODHA_API_KEY=k\nZERODHA_ACCESS_TOKEN=old\nZERODHA_BASE_URL=u".data,
      hasKey l = true → accessTokenKey <+: l) ∧
    linesOf (updateEnvContent "NEW"
        (some "ZERODHA_API_KEY=k\nZERODHA_ACCESS_TOKEN=old\nZERODHA_BASE_URL=u".data)) =
      (linesOf "ZERODHA_API_KEY=k\nZERODHA_ACCESS_TOKEN=old\nZERODHA_BASE_URL=u".data).set
        ((linesOf "ZERODHA_API_KEY=k\nZERODHA_ACCESS_TOKEN=old\nZERODHA_BASE_URL=u".data).findIdx
          hasKey)
        (accessTokenKey ++ "NEW".data) :=
  ⟨by decide,
   (updateEnv_replaces_only_token_line "NEW"
      "ZERODHA_API_KEY=k\nZERODHA_ACCESS_TOKEN=old\nZERODHA_BASE_URL=u".data
      (by decide) ⟨"ZERODHA_ACCESS_TOKEN=old".data, by decide, by decide⟩
      ⟨by decide, by decide, by decide⟩ (by decide)).1⟩

/-- C9: reading "a line matching the access-token key" as a line on which the
(unanchored) regex `ZERODHA_ACCESS_TOKEN=.*` matches, i.e. a line containing
the key as a substring: when no line matches, the rewrite completes without
error and writes back byte-identical content, so the new token is recorded
nowhere in the store; and in every case only the first matching line is
rewritten — the line list keeps its length and every index other than the
first matching one is byte-identical before and after. -/
theorem updateEnv_no_match_and_first_match (tok : String) (c : List Char)
    (htok : '\n' ∉ tok.data ∧ '\r' ∉ tok.data ∧ '$' ∉ tok.data)
    (hc : '\r' ∉ c) :
    ((∀ l ∈ linesOf c, hasKey l = false) → updateEnvContent tok (some c) = c) ∧
    (linesOf (updateEnvContent tok (some c))).length = (linesOf c).length ∧
    ∀ j, j ≠ (linesOf c).findIdx hasKey →
      (linesOf (updateEnvContent tok (some c)))[j]? = (linesOf c)[j]? := by
  refine ⟨?_, ?_, ?_⟩
  · intro hno
    apply replaceEnvToken_no_key
    by_contra habs
    rw [Bool.not_eq_false] at habs
    obtain ⟨l, hmem, hkey⟩ := exists_line_hasKey c habs
    rw [hno l hmem] at hkey
    exact Bool.false_ne_true hkey
  · simp only [updateEnvContent, Option.getD]
    rw [linesOf_replaceEnvToken tok.data htok.1 c, replaceFirstLine_length]
  · intro j hj
    simp only [updateEnvContent, Option.getD]
    rw [linesOf_replaceEnvToken tok.data htok.1 c]
    exact replaceFirstLine_get_ne tok.data (linesOf c) j hj

/-- Witness for C9: a store with no matching line is untouched, and in a store
with two matching lines the second line is byte-identical after the write. -/
theorem updateEnv_no_match_and_first_match_witness :
    updateEnvContent "NEW" (some "A=1\nB=2".data) = "A=1\nB=2".data ∧
    (linesOf (updateEnvContent "NEW"
        (some "ZERODHA_ACCESS_TOKEN=a\nZERODHA_ACCESS_TOKEN=b".data)))[1]? =
      (linesOf "ZERODHA_ACCESS_TOKEN=a\nZERODHA_ACCESS_TOKEN=b".data)[1]? :=
  ⟨(updateEnv_no_match_and_first_match "NEW" "A=1\nB=2".data
      ⟨by decide, by decide, by decide⟩ (by decide)).1 (by decide),
   (updateEnv_no_match_and_first_match "NEW"
      "ZERODHA_ACCESS_TOKEN=a\nZERODHA_ACCESS_TOKEN=b".data
      ⟨by decide, by decide, by decide⟩ (by decide)).2.2 1 (by decide)⟩

end KiteLink
